import Mathlib

/-
  Verification of the CollabHub authentication / account-security subsystem.

  Shallow embedding of backend/users/models.py (EmailVerificationToken,
  PasswordResetToken), backend/users/views.py (LoginView, ResendVerificationView,
  PasswordResetRequestView, PasswordResetConfirmView), backend/users/mfa.py
  (verify_backup_code, MFAMixin.verify_mfa), backend/users/mfa_views.py
  (MFADisableView) and backend/security/audit.py (AuditMiddleware).

  The database is modelled as in-memory lists of records; clock time and the
  randomly generated token strings are passed in as parameters, since the code
  obtains them from the environment (timezone.now(), secrets.token_urlsafe).
-/

namespace CollabHub

/-- Model of django.contrib.auth.hashers.make_password: an injective salted-hash
encoding, modelled as tagging the plaintext with a scheme marker. -/
def make_password (p : String) : String := "pbkdf2$" ++ p

/-- Model of django.contrib.auth.hashers.check_password. -/
def check_password (p h : String) : Bool := make_password p == h

/-- A row of the email_verification_tokens table (models.py, EmailVerificationToken). -/
structure VToken where
  id : Nat
  userId : Nat
  token : String
  expires_at : Nat
  used : Bool
deriving Repr, DecidableEq

/-- A row of the password_reset_tokens table (models.py, PasswordResetToken). -/
structure PRToken where
  id : Nat
  userId : Nat
  token : String
  expires_at : Nat
  used : Bool
  ip_address : Option String
deriving Repr, DecidableEq

/-- A row of the users table (models.py, User): the credential fields the
authentication subsystem reads and writes. -/
structure UserRec where
  id : Nat
  email : String
  password : String
  is_active : Bool
  is_verified : Bool
  mfa_enabled : Bool
  mfa_secret : Option String
  backup_codes : List String
deriving Repr, DecidableEq

/-- The relevant database state: user rows plus both token tables.
`nextId` models the auto-incrementing primary key. -/
structure DB where
  users : List UserRec
  evTokens : List VToken
  prTokens : List PRToken
  nextId : Nat
deriving Repr, DecidableEq

/-- Seconds in 24 hours: the email-verification token TTL (timedelta(hours=24)). -/
def EV_TTL : Nat := 24 * 3600

/-- Seconds in 1 hour: the password-reset token TTL (timedelta(hours=1)). -/
def PR_TTL : Nat := 3600

namespace EmailVerificationToken

/-- models.py EmailVerificationToken.create_token: marks every unused token of
this user as used (`filter(user=user, used=False).update(used=True)`), then
persists a fresh token with expiry now + 24h.  `tokStr` stands for the
secrets.token_urlsafe(48) value. -/
def create_token (db : DB) (uid : Nat) (tokStr : String) (now : Nat) : DB × VToken :=
  let invalidated := db.evTokens.map
    (fun t => if t.userId = uid ∧ t.used = false then { t with used := true } else t)
  let newTok : VToken :=
    { id := db.nextId, userId := uid, token := tokStr, expires_at := now + EV_TTL, used := false }
  ({ db with evTokens := invalidated ++ [newTok], nextId := db.nextId + 1 }, newTok)

/-- models.py EmailVerificationToken.verify_token: looks up the row with
`token=token, used=False, expires_at__gt=now`; on a hit marks the token used
and the owning user verified, returning the user; otherwise returns None. -/
def verify_token (db : DB) (tok : String) (now : Nat) : Option Nat × DB :=
  match db.evTokens.find?
      (fun t => t.token == tok && t.used == false && decide (now < t.expires_at)) with
  | none => (none, db)
  | some t0 =>
    let evTokens := db.evTokens.map
      (fun t => if t.id = t0.id then { t with used := true } else t)
    let users := db.users.map
      (fun u => if u.id = t0.userId then { u with is_verified := true } else u)
    (some t0.userId, { db with evTokens := evTokens, users := users })

end EmailVerificationToken

namespace PasswordResetToken

/-- models.py PasswordResetToken.create_token: marks every unused reset token of
this user as used, then persists a fresh token with expiry now + 1h and the
requesting IP. -/
def create_token (db : DB) (uid : Nat) (tokStr : String) (now : Nat)
    (ip : Option String) : DB × PRToken :=
  let invalidated := db.prTokens.map
    (fun t => if t.userId = uid ∧ t.used = false then { t with used := true } else t)
  let newTok : PRToken :=
    { id := db.nextId, userId := uid, token := tokStr, expires_at := now + PR_TTL,
      used := false, ip_address := ip }
  ({ db with prTokens := invalidated ++ [newTok], nextId := db.nextId + 1 }, newTok)

/-- models.py PasswordResetToken.verify_token: a pure lookup of the row with
`token=token, used=False, expires_at__gt=now`; the body contains no write. -/
def verify_token (db : DB) (tok : String) (now : Nat) : Option PRToken :=
  db.prTokens.find?
    (fun t => t.token == tok && t.used == false && decide (now < t.expires_at))

/-- models.py PasswordResetToken.reset_password: validates the token via
verify_token; on success sets the user's password hash, marks the token used,
then marks all remaining unused reset tokens of that user used. -/
def reset_password (db : DB) (tok new_password : String) (now : Nat) : Option Nat × DB :=
  match verify_token db tok now with
  | none => (none, db)
  | some t0 =>
    let users := db.users.map
      (fun u => if u.id = t0.userId then { u with password := make_password new_password } else u)
    let marked := db.prTokens.map
      (fun t => if t.id = t0.id then { t with used := true } else t)
    let prTokens := marked.map
      (fun t => if t.userId = t0.userId ∧ t.used = false then { t with used := true } else t)
    (some t0.userId, { db with users := users, prTokens := prTokens })

end PasswordResetToken

/-! ## Authentication views (views.py) -/

/-- Django authenticate() with the model backend: looks the user up by the
USERNAME_FIELD (email), checks the password against the stored hash, and
refuses inactive users (ModelBackend.user_can_authenticate). -/
def authenticate (db : DB) (email password : String) : Option UserRec :=
  match db.users.find? (fun u => u.email == email) with
  | none => none
  | some u => if check_password password u.password ∧ u.is_active = true then some u else none

/-- The possible results of LoginView.post.  Only the `success` constructor
carries the issued access/refresh pair (RefreshToken.for_user). -/
inductive LoginResponse where
  | missingFields
  | invalidCredentials
  | accountDisabled
  | emailNotVerified (email : String)
  | success (userId : Nat)
deriving Repr, DecidableEq

/-- HTTP status of each LoginView.post response literal. -/
def LoginResponse.status : LoginResponse → Nat
  | .missingFields => 400
  | .invalidCredentials => 401
  | .accountDisabled => 401
  | .emailNotVerified _ => 403
  | .success _ => 200

/-- The machine-readable `code` field of the response body, when present. -/
def LoginResponse.code : LoginResponse → Option String
  | .emailNotVerified _ => some "email_not_verified"
  | _ => none

/-- Whether the response body carries an access/refresh credential pair. -/
def LoginResponse.hasTokens : LoginResponse → Bool
  | .success _ => true
  | _ => false

namespace LoginView

/-- views.py LoginView.post.  `debug` is settings.DEBUG.  A missing field and
the empty string are both falsy in `if not email or not password`. -/
def post (db : DB) (debug : Bool) (email password : Option String) : LoginResponse :=
  match email, password with
  | some e, some p =>
    if e = "" ∨ p = "" then .missingFields
    else
      match authenticate db e p with
      | none => .invalidCredentials
      | some u =>
        if u.is_active = false then .accountDisabled
        else if debug = false ∧ u.is_verified = false then .emailNotVerified u.email
        else .success u.id
  | _, _ => .missingFields

end LoginView

/-- The generic body of views.py ResendVerificationView.post. -/
def RESEND_GENERIC : String := "If this email is registered, a verification link will be sent."

/-- The generic body of views.py PasswordResetRequestView.post. -/
def RESET_GENERIC : String := "If this email is registered, a password reset link will be sent."

namespace ResendVerificationView

/-- views.py ResendVerificationView.post, returning (status, body) and the new
database state.  `tokStr` stands for the fresh secrets.token_urlsafe(48) value
used when a token is created. -/
def post (db : DB) (debug : Bool) (email : Option String) (tokStr : String)
    (now : Nat) : (Nat × String) × DB :=
  match email with
  | none => ((400, "Email is required."), db)
  | some e =>
    if e = "" then ((400, "Email is required."), db)
    else
      match db.users.find? (fun u => u.email == e) with
      | none => ((200, RESEND_GENERIC), db)
      | some u =>
        if u.is_verified = true then ((200, "Email is already verified."), db)
        else if debug = true then ((200, RESEND_GENERIC), db)
        else ((200, RESEND_GENERIC), (EmailVerificationToken.create_token db u.id tokStr now).1)

end ResendVerificationView

namespace PasswordResetRequestView

/-- views.py PasswordResetRequestView.post: on a registered email it creates a
reset token and sends the email; in every case (except a missing email field)
it answers 200 with the same generic body. -/
def post (db : DB) (email : Option String) (tokStr : String) (now : Nat)
    (ip : Option String) : (Nat × String) × DB :=
  match email with
  | none => ((400, "Email is required."), db)
  | some e =>
    if e = "" then ((400, "Email is required."), db)
    else
      match db.users.find? (fun u => u.email == e) with
      | none => ((200, RESET_GENERIC), db)
      | some u => ((200, RESET_GENERIC), (PasswordResetToken.create_token db u.id tokStr now ip).1)

end PasswordResetRequestView

/-- The possible results of PasswordResetConfirmView (GET and POST). -/
inductive ResetConfirmResponse where
  | valid
  | invalidToken
  | passwordTooShort
  | ok
deriving Repr, DecidableEq

/-- HTTP status of each PasswordResetConfirmView response literal. -/
def ResetConfirmResponse.status : ResetConfirmResponse → Nat
  | .valid => 200
  | .invalidToken => 400
  | .passwordTooShort => 400
  | .ok => 200

namespace PasswordResetConfirmView

/-- views.py PasswordResetConfirmView.get: validates the token via the
read-only PasswordResetToken.verify_token; the handler performs no write, so
the database component of the result is the input state. -/
def get (db : DB) (tok : String) (now : Nat) : ResetConfirmResponse × DB :=
  match PasswordResetToken.verify_token db tok now with
  | some _ => (.valid, db)
  | none => (.invalidToken, db)

/-- views.py PasswordResetConfirmView.post: rejects an absent or sub-8-character
password with 400 before touching the token; otherwise delegates to
PasswordResetToken.reset_password. -/
def post (db : DB) (tok : String) (password : Option String) (now : Nat) :
    ResetConfirmResponse × DB :=
  match password with
  | none => (.passwordTooShort, db)
  | some p =>
    if p.length < 8 then (.passwordTooShort, db)
    else
      match PasswordResetToken.reset_password db tok p now with
      | (some _, db2) => (.ok, db2)
      | (none, db2) => (.invalidToken, db2)

end PasswordResetConfirmView

/-! ## MFA engine (mfa.py, mfa_views.py)

pyotp's TOTP check is external to the repository, so the verifier is passed in
as a function `totp : secret → code → Bool`. -/

/-- mfa.py verify_backup_code's normalisation:
`plain_code.upper().replace('-', '').replace(' ', '')`. -/
def normalize_code (c : String) : String :=
  String.mk (((c.data.map Char.toUpper).filter (fun ch => ch ≠ '-')).filter (fun ch => ch ≠ ' '))

/-- The enumerate-and-return loop of mfa.py verify_backup_code: index of the
first stored hash matching the normalised code. -/
def findMatch (p : String → Bool) : List String → Option Nat
  | [] => none
  | h :: t => if p h then some 0 else (findMatch p t).map (· + 1)

/-- mfa.py verify_backup_code: returns (is_valid, index_of_used_code or -1). -/
def verify_backup_code (plain_code : String) (hashed_codes : List String) : Bool × Int :=
  let p := normalize_code plain_code
  match findMatch (fun hashed => check_password p hashed) hashed_codes with
  | some i => (true, (i : Int))
  | none => (false, -1)

/-- The dict returned by mfa.py MFAMixin.verify_mfa. -/
structure MFAResult where
  success : Bool
  requires_mfa : Bool
  error : Option String
  used_backup_code : Bool
deriving Repr, DecidableEq

/-- Truthiness of `user.mfa_secret` in Python: not None and not empty. -/
def secretTruthy : Option String → Bool
  | none => false
  | some s => s ≠ ""

namespace MFAMixin

/-- mfa.py MFAMixin.verify_mfa.  `code` is get_mfa_code(request); None and the
empty string are both falsy in `if not code`.  On a backup-code hit the used
code is popped from user.backup_codes and the user row saved. -/
def verify_mfa (totp : String → String → Bool) (user : UserRec) (code : Option String) :
    MFAResult × UserRec :=
  if user.mfa_enabled = false then
    ({ success := true, requires_mfa := false, error := none, used_backup_code := false }, user)
  else
    match code with
    | none =>
      ({ success := false, requires_mfa := true, error := some "MFA code required",
         used_backup_code := false }, user)
    | some c =>
      if c = "" then
        ({ success := false, requires_mfa := true, error := some "MFA code required",
           used_backup_code := false }, user)
      else if secretTruthy user.mfa_secret = true ∧ totp (user.mfa_secret.getD "") c = true then
        ({ success := true, requires_mfa := true, error := none, used_backup_code := false }, user)
      else if user.backup_codes ≠ [] ∧ (verify_backup_code c user.backup_codes).1 = true then
        ({ success := true, requires_mfa := true, error := none, used_backup_code := true },
         { user with backup_codes :=
             user.backup_codes.eraseIdx (verify_backup_code c user.backup_codes).2.toNat })
      else
        ({ success := false, requires_mfa := true, error := some "Invalid MFA code",
           used_backup_code := false }, user)

end MFAMixin

/-- The possible results of mfa_views.py MFADisableView.post. -/
inductive DisableResponse where
  | notEnabled
  | invalidPassword
  | invalidCode
  | ok
deriving Repr, DecidableEq

/-- HTTP status of each MFADisableView.post response literal. -/
def DisableResponse.status : DisableResponse → Nat
  | .notEnabled => 400
  | .invalidPassword => 403
  | .invalidCode => 403
  | .ok => 200

namespace MFADisableView

/-- mfa_views.py MFADisableView.post: requires MFA enabled, the account
password, and a valid current TOTP code; only then clears mfa_enabled,
mfa_secret and backup_codes.  Absent password/code and the empty string are
falsy. -/
def post (totp : String → String → Bool) (user : UserRec)
    (password code : Option String) : DisableResponse × UserRec :=
  if user.mfa_enabled = false then (.notEnabled, user)
  else
    match password with
    | none => (.invalidPassword, user)
    | some pw =>
      if pw = "" ∨ check_password pw user.password = false then (.invalidPassword, user)
      else
        match code with
        | none => (.invalidCode, user)
        | some c =>
          if c = "" ∨ totp (user.mfa_secret.getD "") c = false then (.invalidCode, user)
          else (.ok, { user with mfa_enabled := false, mfa_secret := none, backup_codes := [] })

end MFADisableView

/-! ## Audit middleware (security/audit.py) -/

/-- The module-level threading.local() slots read by the audit signal
handlers. -/
structure ThreadLocals where
  user : Option Nat
  request : Option Nat
deriving Repr, DecidableEq

/-- audit.py AuditMiddleware.__call__.  `handler` is the prepackaged outcome of
self.get_response(request): either a response value or a raised exception.
The middleware body has no try/finally, so the two clean-up assignments run
only when get_response returns normally. -/
def AuditMiddleware.call (handler : Except String Nat) (authUser : Option Nat)
    (reqId : Nat) (tl : ThreadLocals) : Except String Nat × ThreadLocals :=
  let tl1 : ThreadLocals := { tl with request := some reqId }
  let tl2 : ThreadLocals := { tl1 with user := authUser }
  match handler with
  | .ok resp => (.ok resp, { user := none, request := none })
  | .error e => (.error e, tl2)

/-! ## Derived notions used by the theorems -/

/-- Number of unused email-verification tokens stored for a user. -/
def unusedEvCount (db : DB) (uid : Nat) : Nat :=
  (db.evTokens.filter (fun t => t.userId == uid && t.used == false)).length

/-- Number of unused password-reset tokens stored for a user. -/
def unusedPrCount (db : DB) (uid : Nat) : Nat :=
  (db.prTokens.filter (fun t => t.userId == uid && t.used == false)).length

/-- The UNIQUE constraint on the email-verification token column. -/
def evTokenUnique (db : DB) : Prop :=
  ∀ a ∈ db.evTokens, ∀ b ∈ db.evTokens, a.token = b.token → a = b

/-- The UNIQUE constraint on the password-reset token column. -/
def prTokenUnique (db : DB) : Prop :=
  ∀ a ∈ db.prTokens, ∀ b ∈ db.prTokens, a.token = b.token → a = b

instance (db : DB) : Decidable (evTokenUnique db) := by
  unfold evTokenUnique; infer_instance

instance (db : DB) : Decidable (prTokenUnique db) := by
  unfold prTokenUnique; infer_instance

/-! ## Helper lemmas -/

lemma ev_invalidate_filter_nil (uid : Nat) (l : List VToken) :
    (l.map (fun t => if t.userId = uid ∧ t.used = false then { t with used := true } else t)).filter
      (fun t => t.userId == uid && t.used == false) = [] := by
  rw [List.filter_eq_nil_iff]
  intro t ht
  rcases List.mem_map.mp ht with ⟨s, _, rfl⟩
  by_cases h1 : s.userId = uid ∧ s.used = false
  · rw [if_pos h1]; simp
  · rw [if_neg h1]
    simp only [Bool.and_eq_true, beq_iff_eq, not_and]
    intro hc hu
    exact h1 ⟨hc, by simpa using hu⟩

lemma ev_create_eq (db : DB) (uid : Nat) (tokStr : String) (now : Nat) :
    EmailVerificationToken.create_token db uid tokStr now =
      ({ db with
          evTokens := db.evTokens.map
              (fun t => if t.userId = uid ∧ t.used = false then { t with used := true } else t)
            ++ [{ id := db.nextId, userId := uid, token := tokStr,
                  expires_at := now + EV_TTL, used := false }],
          nextId := db.nextId + 1 },
       { id := db.nextId, userId := uid, token := tokStr,
         expires_at := now + EV_TTL, used := false }) := rfl

lemma pr_create_eq (db : DB) (uid : Nat) (tokStr : String) (now : Nat) (ip : Option String) :
    PasswordResetToken.create_token db uid tokStr now ip =
      ({ db with
          prTokens := db.prTokens.map
              (fun t => if t.userId = uid ∧ t.used = false then { t with used := true } else t)
            ++ [{ id := db.nextId, userId := uid, token := tokStr,
                  expires_at := now + PR_TTL, used := false, ip_address := ip }],
          nextId := db.nextId + 1 },
       { id := db.nextId, userId := uid, token := tokStr,
         expires_at := now + PR_TTL, used := false, ip_address := ip }) := rfl

lemma pr_invalidate_filter_nil (uid : Nat) (l : List PRToken) :
    (l.map (fun t => if t.userId = uid ∧ t.used = false then { t with used := true } else t)).filter
      (fun t => t.userId == uid && t.used == false) = [] := by
  rw [List.filter_eq_nil_iff]
  intro t ht
  rcases List.mem_map.mp ht with ⟨s, _, rfl⟩
  by_cases h1 : s.userId = uid ∧ s.used = false
  · rw [if_pos h1]; simp
  · rw [if_neg h1]
    simp only [Bool.and_eq_true, beq_iff_eq, not_and]
    intro hc hu
    exact h1 ⟨hc, by simpa using hu⟩

lemma ev_verify_eq_none (db : DB) (tok : String) (now : Nat)
    (h : db.evTokens.find?
        (fun t => t.token == tok && t.used == false && decide (now < t.expires_at)) = none) :
    EmailVerificationToken.verify_token db tok now = (none, db) := by
  unfold EmailVerificationToken.verify_token
  rw [h]

lemma ev_verify_eq_some (db : DB) (tok : String) (now : Nat) (t0 : VToken)
    (h : db.evTokens.find?
        (fun t => t.token == tok && t.used == false && decide (now < t.expires_at)) = some t0) :
    EmailVerificationToken.verify_token db tok now =
      (some t0.userId,
       { db with
          evTokens := db.evTokens.map (fun t => if t.id = t0.id then { t with used := true } else t),
          users := db.users.map
            (fun u => if u.id = t0.userId then { u with is_verified := true } else u) }) := by
  unfold EmailVerificationToken.verify_token
  rw [h]

lemma pr_reset_eq_none (db : DB) (tok pw : String) (now : Nat)
    (h : PasswordResetToken.verify_token db tok now = none) :
    PasswordResetToken.reset_password db tok pw now = (none, db) := by
  unfold PasswordResetToken.reset_password
  rw [h]

lemma pr_reset_eq_some (db : DB) (tok pw : String) (now : Nat) (t0 : PRToken)
    (h : PasswordResetToken.verify_token db tok now = some t0) :
    PasswordResetToken.reset_password db tok pw now =
      (some t0.userId,
       { db with
          users := db.users.map
            (fun u => if u.id = t0.userId then { u with password := make_password pw } else u),
          prTokens := (db.prTokens.map
              (fun t => if t.id = t0.id then { t with used := true } else t)).map
            (fun t => if t.userId = t0.userId ∧ t.used = false then { t with used := true } else t) }) := by
  unfold PasswordResetToken.reset_password
  rw [h]

/-! ## Claim theorems -/

/-- C2: for every user and purpose (email verification or password reset),
create_token marks every previously unused token of that purpose for that user
as used before persisting the new token, so at most one unused token per user
per purpose exists afterwards (exactly the newly created one), for any prior
database state. -/
theorem create_token_single_unused (db : DB) (uid : Nat) (tokStr : String) (now : Nat)
    (ip : Option String) :
    (∀ t ∈ db.evTokens, t.userId = uid → t.used = false →
       { t with used := true } ∈ (EmailVerificationToken.create_token db uid tokStr now).1.evTokens) ∧
    (∀ t ∈ (EmailVerificationToken.create_token db uid tokStr now).1.evTokens,
       t.userId = uid → t.used = false →
       t = (EmailVerificationToken.create_token db uid tokStr now).2) ∧
    unusedEvCount (EmailVerificationToken.create_token db uid tokStr now).1 uid = 1 ∧
    (∀ t ∈ db.prTokens, t.userId = uid → t.used = false →
       { t with used := true } ∈ (PasswordResetToken.create_token db uid tokStr now ip).1.prTokens) ∧
    (∀ t ∈ (PasswordResetToken.create_token db uid tokStr now ip).1.prTokens,
       t.userId = uid → t.used = false →
       t = (PasswordResetToken.create_token db uid tokStr now ip).2) ∧
    unusedPrCount (PasswordResetToken.create_token db uid tokStr now ip).1 uid = 1 := by
  rw [ev_create_eq, pr_create_eq]
  refine ⟨?_, ?_, ?_, ?_, ?_, ?_⟩
  · intro t ht h1 h2
    simp only [List.mem_append]
    left
    exact List.mem_map.mpr ⟨t, ht, by rw [if_pos ⟨h1, h2⟩]⟩
  · intro t ht h1 h2
    simp only [List.mem_append] at ht
    rcases ht with ht | ht
    · rcases List.mem_map.mp ht with ⟨s, _, rfl⟩
      by_cases hc : s.userId = uid ∧ s.used = false
      · rw [if_pos hc] at h2
        simp at h2
      · rw [if_neg hc] at h1 h2
        exact absurd ⟨h1, h2⟩ hc
    · simpa using ht
  · unfold unusedEvCount
    simp only [List.filter_append, ev_invalidate_filter_nil]
    simp
  · intro t ht h1 h2
    simp only [List.mem_append]
    left
    exact List.mem_map.mpr ⟨t, ht, by rw [if_pos ⟨h1, h2⟩]⟩
  · intro t ht h1 h2
    simp only [List.mem_append] at ht
    rcases ht with ht | ht
    · rcases List.mem_map.mp ht with ⟨s, _, rfl⟩
      by_cases hc : s.userId = uid ∧ s.used = false
      · rw [if_pos hc] at h2
        simp at h2
      · rw [if_neg hc] at h1 h2
        exact absurd ⟨h1, h2⟩ hc
    · simpa using ht
  · unfold unusedPrCount
    simp only [List.filter_append, pr_invalidate_filter_nil]
    simp

/-- C1: a verification or reset token redeemed once can never be redeemed
again: after EmailVerificationToken.verify_token (resp.
PasswordResetToken.reset_password) succeeds on a token string, the stored
token carrying that string is marked used, every subsequent redemption attempt
with the same string returns None, and no operation of either token model ever
turns a used token back to unused. -/
theorem token_redeemed_once :
    (∀ db tok now uid db2, evTokenUnique db →
       EmailVerificationToken.verify_token db tok now = (some uid, db2) →
       (∃ t ∈ db2.evTokens, t.token = tok ∧ t.used = true) ∧
       (∀ now2, EmailVerificationToken.verify_token db2 tok now2 = (none, db2))) ∧
    (∀ db tok pw now uid db2, prTokenUnique db →
       PasswordResetToken.reset_password db tok pw now = (some uid, db2) →
       (∃ t ∈ db2.prTokens, t.token = tok ∧ t.used = true) ∧
       (∀ pw2 now2, PasswordResetToken.reset_password db2 tok pw2 now2 = (none, db2))) ∧
    (∀ db uid tokStr now t, t ∈ db.evTokens → t.used = true →
       ∃ t2 ∈ (EmailVerificationToken.create_token db uid tokStr now).1.evTokens,
         t2.id = t.id ∧ t2.token = t.token ∧ t2.used = true) ∧
    (∀ db tok now t, t ∈ db.evTokens → t.used = true →
       ∃ t2 ∈ (EmailVerificationToken.verify_token db tok now).2.evTokens,
         t2.id = t.id ∧ t2.token = t.token ∧ t2.used = true) ∧
    (∀ db uid tokStr now ip t, t ∈ db.prTokens → t.used = true →
       ∃ t2 ∈ (PasswordResetToken.create_token db uid tokStr now ip).1.prTokens,
         t2.id = t.id ∧ t2.token = t.token ∧ t2.used = true) ∧
    (∀ db tok pw now t, t ∈ db.prTokens → t.used = true →
       ∃ t2 ∈ (PasswordResetToken.reset_password db tok pw now).2.prTokens,
         t2.id = t.id ∧ t2.token = t.token ∧ t2.used = true) := by
  refine ⟨?_, ?_, ?_, ?_, ?_, ?_⟩
  · intro db tok now uid db2 hu hv
    rcases hfind : db.evTokens.find?
        (fun t => t.token == tok && t.used == false && decide (now < t.expires_at)) with _ | t0
    · rw [ev_verify_eq_none db tok now hfind] at hv
      simp at hv
    · have hpred := List.find?_some hfind
      simp only [Bool.and_eq_true, beq_iff_eq, decide_eq_true_eq] at hpred
      have ht0mem := List.mem_of_find?_eq_some hfind
      rw [ev_verify_eq_some db tok now t0 hfind] at hv
      have h2 := congrArg Prod.snd hv
      simp only at h2
      subst h2
      constructor
      · refine ⟨{ t0 with used := true },
          List.mem_map.mpr ⟨t0, ht0mem, by rw [if_pos rfl]⟩, hpred.1.1, rfl⟩
      · intro now2
        have hnone : (db.evTokens.map
            (fun t => if t.id = t0.id then { t with used := true } else t)).find?
            (fun t => t.token == tok && t.used == false && decide (now2 < t.expires_at)) = none := by
          rw [List.find?_eq_none]
          intro x hx
          rcases List.mem_map.mp hx with ⟨s, hs, rfl⟩
          by_cases hid : s.id = t0.id
          · rw [if_pos hid]; simp
          · rw [if_neg hid]
            simp only [Bool.and_eq_true, beq_iff_eq, decide_eq_true_eq, not_and]
            intro hst hsu
            exact absurd (congrArg VToken.id (hu s hs t0 ht0mem (hst.1.trans hpred.1.1.symm))) hid
        exact ev_verify_eq_none _ tok now2 hnone
  · intro db tok pw now uid db2 hu hv
    rcases hver : PasswordResetToken.verify_token db tok now with _ | t0
    · rw [pr_reset_eq_none db tok pw now hver] at hv
      simp at hv
    · have hpred := List.find?_some hver
      simp only [Bool.and_eq_true, beq_iff_eq, decide_eq_true_eq] at hpred
      have ht0mem := List.mem_of_find?_eq_some hver
      rw [pr_reset_eq_some db tok pw now t0 hver] at hv
      have h2 := congrArg Prod.snd hv
      simp only at h2
      subst h2
      constructor
      · refine ⟨{ t0 with used := true }, ?_, hpred.1.1, rfl⟩
        refine List.mem_map.mpr ⟨{ t0 with used := true },
          List.mem_map.mpr ⟨t0, ht0mem, by rw [if_pos rfl]⟩, ?_⟩
        simp
      · intro pw2 now2
        have hnone : PasswordResetToken.verify_token
            { db with
              users := db.users.map
                (fun u => if u.id = t0.userId then { u with password := make_password pw } else u),
              prTokens := (db.prTokens.map
                  (fun t => if t.id = t0.id then { t with used := true } else t)).map
                (fun t => if t.userId = t0.userId ∧ t.used = false then { t with used := true } else t) }
            tok now2 = none := by
          unfold PasswordResetToken.verify_token
          rw [List.find?_eq_none]
          intro x hx
          rcases List.mem_map.mp hx with ⟨y, hy, rfl⟩
          rcases List.mem_map.mp hy with ⟨s, hs, rfl⟩
          by_cases hid : s.id = t0.id
          · rw [if_pos hid]
            rw [if_neg (by rintro ⟨_, hc⟩; simp at hc)]
            simp
          · rw [if_neg hid]
            by_cases hc2 : s.userId = t0.userId ∧ s.used = false
            · rw [if_pos hc2]; simp
            · rw [if_neg hc2]
              simp only [Bool.and_eq_true, beq_iff_eq, decide_eq_true_eq, not_and]
              intro hst hsu
              exact absurd (congrArg PRToken.id (hu s hs t0 ht0mem (hst.1.trans hpred.1.1.symm))) hid
        exact pr_reset_eq_none _ tok pw2 now2 hnone
  · intro db uid tokStr now t ht hus
    rw [ev_create_eq]
    have hf : (if t.userId = uid ∧ t.used = false then { t with used := true } else t) = t :=
      if_neg (by rintro ⟨_, hc⟩; rw [hus] at hc; cases hc)
    exact ⟨t, List.mem_append_left _ (List.mem_map.mpr ⟨t, ht, hf⟩), rfl, rfl, hus⟩
  · intro db tok now t ht hus
    rcases hfind : db.evTokens.find?
        (fun s => s.token == tok && s.used == false && decide (now < s.expires_at)) with _ | t0
    · rw [ev_verify_eq_none db tok now hfind]
      exact ⟨t, ht, rfl, rfl, hus⟩
    · rw [ev_verify_eq_some db tok now t0 hfind]
      refine ⟨if t.id = t0.id then { t with used := true } else t,
        List.mem_map.mpr ⟨t, ht, rfl⟩, ?_⟩
      split_ifs <;> simp [hus]
  · intro db uid tokStr now ip t ht hus
    rw [pr_create_eq]
    have hf : (if t.userId = uid ∧ t.used = false then { t with used := true } else t) = t :=
      if_neg (by rintro ⟨_, hc⟩; rw [hus] at hc; cases hc)
    exact ⟨t, List.mem_append_left _ (List.mem_map.mpr ⟨t, ht, hf⟩), rfl, rfl, hus⟩
  · intro db tok pw now t ht hus
    rcases hver : PasswordResetToken.verify_token db tok now with _ | t0
    · rw [pr_reset_eq_none db tok pw now hver]
      exact ⟨t, ht, rfl, rfl, hus⟩
    · rw [pr_reset_eq_some db tok pw now t0 hver]
      refine ⟨_, List.mem_map.mpr ⟨_, List.mem_map.mpr ⟨t, ht, rfl⟩, rfl⟩, ?_⟩
      by_cases hid : t.id = t0.id <;> simp [hid, hus]

/-- A concrete user record used by the witnesses. -/
def exUser1 : UserRec :=
  { id := 1, email := "a@x.com", password := make_password "Abcd1234", is_active := true,
    is_verified := false, mfa_enabled := false, mfa_secret := none, backup_codes := [] }

/-- A concrete database used by the witnesses: one user owning one unused
email-verification token and one unused password-reset token. -/
def exDb : DB :=
  { users := [exUser1],
    evTokens := [{ id := 10, userId := 1, token := "evtok1", expires_at := 100, used := false }],
    prTokens := [{ id := 11, userId := 1, token := "prtok1", expires_at := 50, used := false,
                   ip_address := some "1.2.3.4" }],
    nextId := 12 }

/-- Witness for C1: a concrete redemption of the email-verification token
"evtok1" marks it used and makes every later redemption return None. -/
theorem token_redeemed_once_witness :
    (∃ t ∈ (EmailVerificationToken.verify_token exDb "evtok1" 10).2.evTokens,
       t.token = "evtok1" ∧ t.used = true) ∧
    (∀ now2, EmailVerificationToken.verify_token
        (EmailVerificationToken.verify_token exDb "evtok1" 10).2 "evtok1" now2 =
      (none, (EmailVerificationToken.verify_token exDb "evtok1" 10).2)) :=
  token_redeemed_once.1 exDb "evtok1" 10 1
    (EmailVerificationToken.verify_token exDb "evtok1" 10).2 (by decide) (by decide)

/-- Witness for C2: issuing a fresh token for user 1 leaves exactly one unused
token per purpose and marks the prior unused tokens used. -/
theorem create_token_single_unused_witness :
    unusedEvCount (EmailVerificationToken.create_token exDb 1 "newtok" 0).1 1 = 1 ∧
    unusedPrCount (PasswordResetToken.create_token exDb 1 "newtok" 0 none).1 1 = 1 ∧
    ({ id := 10, userId := 1, token := "evtok1", expires_at := 100, used := true } : VToken) ∈
      (EmailVerificationToken.create_token exDb 1 "newtok" 0).1.evTokens := by
  have h := create_token_single_unused exDb 1 "newtok" 0 none
  refine ⟨h.2.2.1, h.2.2.2.2.2, ?_⟩
  exact h.1 { id := 10, userId := 1, token := "evtok1", expires_at := 100, used := false }
    (by decide) rfl rfl

/-- C8: PasswordResetToken.verify_token, the read-only validate step behind GET
on the reset link, changes no stored state: the GET handler returns the
database unchanged, verify_token only reports a stored token that is unused,
and it is reset_password (consume) that marks the redeemed token used. -/
theorem reset_validate_read_only :
    (∀ db tok now, (PasswordResetConfirmView.get db tok now).2 = db) ∧
    (∀ db tok now t0, PasswordResetToken.verify_token db tok now = some t0 →
       t0 ∈ db.prTokens ∧ t0.token = tok ∧ t0.used = false) ∧
    (∀ db tok pw now uid db2, PasswordResetToken.reset_password db tok pw now = (some uid, db2) →
       ∃ t ∈ db2.prTokens, t.token = tok ∧ t.used = true) := by
  refine ⟨?_, ?_, ?_⟩
  · intro db tok now
    unfold PasswordResetConfirmView.get
    split <;> rfl
  · intro db tok now t0 h
    unfold PasswordResetToken.verify_token at h
    have hm := List.mem_of_find?_eq_some h
    have hp := List.find?_some h
    simp only [Bool.and_eq_true, beq_iff_eq, decide_eq_true_eq] at hp
    exact ⟨hm, hp.1.1, hp.1.2⟩
  · intro db tok pw now uid db2 hv
    rcases hver : PasswordResetToken.verify_token db tok now with _ | t0
    · rw [pr_reset_eq_none db tok pw now hver] at hv
      simp at hv
    · have hpred := List.find?_some hver
      simp only [Bool.and_eq_true, beq_iff_eq, decide_eq_true_eq] at hpred
      have ht0mem := List.mem_of_find?_eq_some hver
      rw [pr_reset_eq_some db tok pw now t0 hver] at hv
      have h2 := congrArg Prod.snd hv
      simp only at h2
      subst h2
      refine ⟨{ t0 with used := true }, ?_, hpred.1.1, rfl⟩
      refine List.mem_map.mpr ⟨{ t0 with used := true },
        List.mem_map.mpr ⟨t0, ht0mem, by rw [if_pos rfl]⟩, ?_⟩
      simp

/-- Witness for C8 at the concrete database exDb: validating "prtok1" leaves
the state untouched; consuming it marks it used. -/
theorem reset_validate_read_only_witness :
    (PasswordResetConfirmView.get exDb "prtok1" 10).2 = exDb ∧
    ({ id := 11, userId := 1, token := "prtok1", expires_at := 50, used := false,
       ip_address := some "1.2.3.4" } : PRToken) ∈ exDb.prTokens ∧
    (∃ t ∈ (PasswordResetToken.reset_password exDb "prtok1" "Newpass123" 10).2.prTokens,
       t.token = "prtok1" ∧ t.used = true) := by
  refine ⟨reset_validate_read_only.1 exDb "prtok1" 10, ?_, ?_⟩
  · exact (reset_validate_read_only.2.1 exDb "prtok1" 10
      { id := 11, userId := 1, token := "prtok1", expires_at := 50, used := false,
        ip_address := some "1.2.3.4" } (by decide)).1
  · exact reset_validate_read_only.2.2 exDb "prtok1" "Newpass123" 10 1
      (PasswordResetToken.reset_password exDb "prtok1" "Newpass123" 10).2 (by decide)

/-- C10: POST on the password-reset confirm endpoint with an absent password
or one shorter than 8 characters returns 400 and leaves the database
(password hashes and token used flags) unchanged, whatever the token is. -/
theorem reset_confirm_short_password (db : DB) (tok : String) (password : Option String)
    (now : Nat)
    (h : password = none ∨ ∃ p, password = some p ∧ p.length < 8) :
    PasswordResetConfirmView.post db tok password now = (.passwordTooShort, db) ∧
    ResetConfirmResponse.passwordTooShort.status = 400 := by
  constructor
  · rcases h with rfl | ⟨p, rfl, hp⟩
    · rfl
    · simp [PasswordResetConfirmView.post, hp]
  · rfl

/-- Witness for C10: a 5-character password is rejected with 400 and exDb,
which holds a valid unexpired reset token "prtok1", is unchanged. -/
theorem reset_confirm_short_password_witness :
    PasswordResetConfirmView.post exDb "prtok1" (some "short") 10 = (.passwordTooShort, exDb) ∧
    ResetConfirmResponse.passwordTooShort.status = 400 :=
  reset_confirm_short_password exDb "prtok1" (some "short") 10
    (Or.inr ⟨"short", rfl, by decide⟩)

/-- C6: a login with correct credentials by an active but unverified user,
outside debug mode, yields the 403 response carrying code email_not_verified
and no access/refresh tokens. -/
theorem login_unverified_rejected (db : DB) (e p : String) (u : UserRec)
    (he : e ≠ "") (hp : p ≠ "")
    (hfind : db.users.find? (fun v => v.email == e) = some u)
    (hpw : check_password p u.password = true)
    (hact : u.is_active = true)
    (hver : u.is_verified = false) :
    LoginView.post db false (some e) (some p) = .emailNotVerified u.email ∧
    (LoginView.post db false (some e) (some p)).status = 403 ∧
    (LoginView.post db false (some e) (some p)).code = some "email_not_verified" ∧
    (LoginView.post db false (some e) (some p)).hasTokens = false := by
  have h1 : LoginView.post db false (some e) (some p) = .emailNotVerified u.email := by
    simp [LoginView.post, authenticate, hfind, he, hp, hpw, hact, hver]
  exact ⟨h1, by rw [h1]; rfl, by rw [h1]; rfl, by rw [h1]; rfl⟩

/-- Witness for C6: the unverified user of exDb logging in with the right
password gets the email_not_verified 403 and no tokens. -/
theorem login_unverified_rejected_witness :
    LoginView.post exDb false (some "a@x.com") (some "Abcd1234") =
      .emailNotVerified exUser1.email ∧
    (LoginView.post exDb false (some "a@x.com") (some "Abcd1234")).status = 403 ∧
    (LoginView.post exDb false (some "a@x.com") (some "Abcd1234")).code =
      some "email_not_verified" ∧
    (LoginView.post exDb false (some "a@x.com") (some "Abcd1234")).hasTokens = false :=
  login_unverified_rejected exDb "a@x.com" "Abcd1234" exUser1 (by decide) (by decide)
    (by decide) (by decide) rfl rfl

/-- C9 counterexample: when the wrapped get_response raises, AuditMiddleware
propagates the exception with the thread-local user and request still set, so
the context is not cleared on that exit path. -/
theorem audit_context_not_cleared_cex :
    (AuditMiddleware.call (.error "boom") (some 7) 1 { user := none, request := none }).2 =
      { user := some 7, request := some 1 } ∧
    ({ user := some 7, request := some 1 } : ThreadLocals) ≠
      { user := none, request := none } :=
  ⟨rfl, by decide⟩

/-- C9 amended: on every request whose inner handler returns normally the
middleware clears both thread-local slots to None before returning; the
exception path (no try/finally in the source) is excluded. -/
theorem audit_context_cleared_amended (handler : Except String Nat) (authUser : Option Nat)
    (reqId : Nat) (tl : ThreadLocals) (resp : Nat) (hok : handler = .ok resp) :
    (AuditMiddleware.call handler authUser reqId tl).1 = handler ∧
    (AuditMiddleware.call handler authUser reqId tl).2 =
      { user := none, request := none } := by
  subst hok
  exact ⟨rfl, rfl⟩

/-- Witness for the amended C9 at a concrete normally-returning handler. -/
theorem audit_context_cleared_amended_witness :
    (AuditMiddleware.call (.ok 200) (some 7) 1 { user := none, request := none }).1 = .ok 200 ∧
    (AuditMiddleware.call (.ok 200) (some 7) 1 { user := none, request := none }).2 =
      { user := none, request := none } :=
  audit_context_cleared_amended (.ok 200) (some 7) 1 { user := none, request := none } 200 rfl

/-- C7: with MFA enabled, a disable request whose TOTP code is absent, empty
or rejected by the verifier fails with 403 and leaves the user record
(mfa_enabled, mfa_secret, backup_codes) unchanged, whatever the password
field contains. -/
theorem mfa_disable_requires_totp (totp : String → String → Bool) (user : UserRec)
    (password code : Option String)
    (hen : user.mfa_enabled = true)
    (hcode : code = none ∨ code = some "" ∨
       ∃ c, code = some c ∧ totp (user.mfa_secret.getD "") c = false) :
    (MFADisableView.post totp user password code).1.status = 403 ∧
    (MFADisableView.post totp user password code).2 = user := by
  unfold MFADisableView.post
  rw [if_neg (by rw [hen]; simp)]
  rcases password with _ | pw
  · exact ⟨rfl, rfl⟩
  · by_cases hpw : pw = "" ∨ check_password pw user.password = false
    · simp only [if_pos hpw]
      refine ⟨?_, ?_⟩ <;> trivial
    · simp only [if_neg hpw]
      rcases hcode with rfl | rfl | ⟨c, rfl, hc⟩
      · refine ⟨?_, ?_⟩ <;> trivial
      · simp only [if_pos (Or.inl (rfl : ("" : String) = ""))]
        refine ⟨?_, ?_⟩ <;> trivial
      · simp only [if_pos (Or.inr hc)]
        refine ⟨?_, ?_⟩ <;> trivial

/-- A concrete MFA-enabled user used by the MFA witnesses. -/
def exMfaUser : UserRec :=
  { id := 3, email := "m@x.com", password := make_password "Secretpw1", is_active := true,
    is_verified := true, mfa_enabled := true, mfa_secret := some "BASE32SECRET",
    backup_codes := [make_password "AAAA1111", make_password "BBBB2222"] }

/-- Witness for C7: with a correct password but a TOTP code the verifier
rejects, disabling fails with 403 and the user record is unchanged. -/
theorem mfa_disable_requires_totp_witness :
    (MFADisableView.post (fun _ _ => false) exMfaUser (some "Secretpw1")
        (some "123456")).1.status = 403 ∧
    (MFADisableView.post (fun _ _ => false) exMfaUser (some "Secretpw1")
        (some "123456")).2 = exMfaUser :=
  mfa_disable_requires_totp (fun _ _ => false) exMfaUser (some "Secretpw1") (some "123456")
    rfl (Or.inr (Or.inr ⟨"123456", rfl, rfl⟩))

/-- A concrete already-verified user, owner of the C4 counterexample. -/
def exVerUser : UserRec :=
  { id := 2, email := "v@x.com", password := make_password "Abcd1234", is_active := true,
    is_verified := true, mfa_enabled := false, mfa_secret := none, backup_codes := [] }

/-- Database holding only the verified user v@x.com; n@x.com is unregistered. -/
def exDb4 : DB := { users := [exVerUser], evTokens := [], prTokens := [], nextId := 1 }

/-- C4 counterexample: for the registered (already-verified) email v@x.com and
the unregistered email n@x.com, ResendVerificationView.post returns different
bodies, so the endpoint does not return byte-identical responses for every
registered/unregistered pair. -/
theorem enumeration_not_identical_cex :
    (ResendVerificationView.post exDb4 false (some "v@x.com") "t" 0).1 =
      (200, "Email is already verified.") ∧
    (ResendVerificationView.post exDb4 false (some "n@x.com") "t" 0).1 = (200, RESEND_GENERIC) ∧
    "Email is already verified." ≠ RESEND_GENERIC := by
  refine ⟨by decide, by decide, by decide⟩

/-- C4 amended: the password-reset-request endpoint answers every submitted
(nonempty) email with the byte-identical generic 200 body whether or not it is
registered; the resend-verification endpoint does so only when the email is
unregistered or belongs to an unverified account — an already-verified account
is answered with the distinct body "Email is already verified.". -/
theorem enumeration_generic_amended :
    (∀ db e tokStr now ip, e ≠ "" →
       (PasswordResetRequestView.post db (some e) tokStr now ip).1 = (200, RESET_GENERIC)) ∧
    (∀ db debug e tokStr now, e ≠ "" →
       db.users.find? (fun u => u.email == e) = none →
       (ResendVerificationView.post db debug (some e) tokStr now).1 = (200, RESEND_GENERIC)) ∧
    (∀ db debug e u tokStr now, e ≠ "" →
       db.users.find? (fun v => v.email == e) = some u → u.is_verified = false →
       (ResendVerificationView.post db debug (some e) tokStr now).1 = (200, RESEND_GENERIC)) := by
  refine ⟨?_, ?_, ?_⟩
  · intro db e tokStr now ip he
    unfold PasswordResetRequestView.post
    simp only [if_neg he]
    cases hf : db.users.find? (fun u => u.email == e) <;> simp [hf]
  · intro db debug e tokStr now he hf
    unfold ResendVerificationView.post
    simp only [if_neg he, hf]
  · intro db debug e u tokStr now he hf hunv
    unfold ResendVerificationView.post
    simp only [if_neg he, hf]
    cases debug <;> simp [hunv]

/-- Witness for the amended C4 at concrete emails: reset-request is generic for
both a registered and an unregistered email; resend is generic for an
unregistered email and for the unverified registered user of exDb. -/
theorem enumeration_generic_amended_witness :
    (PasswordResetRequestView.post exDb4 (some "v@x.com") "t" 0 none).1 = (200, RESET_GENERIC) ∧
    (PasswordResetRequestView.post exDb4 (some "n@x.com") "t" 0 none).1 = (200, RESET_GENERIC) ∧
    (ResendVerificationView.post exDb4 false (some "n@x.com") "t" 0).1 = (200, RESEND_GENERIC) ∧
    (ResendVerificationView.post exDb false (some "a@x.com") "t" 0).1 = (200, RESEND_GENERIC) := by
  refine ⟨enumeration_generic_amended.1 exDb4 "v@x.com" "t" 0 none (by decide),
    enumeration_generic_amended.1 exDb4 "n@x.com" "t" 0 none (by decide),
    enumeration_generic_amended.2.1 exDb4 false "n@x.com" "t" 0 (by decide) (by decide),
    enumeration_generic_amended.2.2 exDb false "a@x.com" exUser1 "t" 0 (by decide)
      (by decide) rfl⟩

/-- Database holding only the MFA-enabled user m@x.com. -/
def exDbMfa : DB := { users := [exMfaUser], evTokens := [], prTokens := [], nextId := 1 }

/-- C3 counterexample: the MFA-enabled user m@x.com logs in with correct
credentials and no MFA code anywhere in the request, yet LoginView.post issues
the access/refresh pair instead of rejecting with an MFA-required reason. -/
theorem login_no_mfa_challenge_cex :
    exMfaUser.mfa_enabled = true ∧
    LoginView.post exDbMfa false (some "m@x.com") (some "Secretpw1") = .success 3 ∧
    (LoginView.post exDbMfa false (some "m@x.com") (some "Secretpw1")).hasTokens = true := by
  refine ⟨rfl, by decide, by decide⟩

/-- C3 amended: MFAMixin.verify_mfa does reject an absent or invalid code for
an MFA-enabled user without granting success, but LoginView.post never invokes
it: the login flow issues the credential pair to an MFA-enabled user with no
MFA challenge at all. -/
theorem mfa_challenge_amended :
    (∀ totp (user : UserRec), user.mfa_enabled = true →
       MFAMixin.verify_mfa totp user none =
         ({ success := false, requires_mfa := true, error := some "MFA code required",
            used_backup_code := false }, user)) ∧
    (∀ totp (user : UserRec) c, user.mfa_enabled = true → c ≠ "" →
       (secretTruthy user.mfa_secret = true → totp (user.mfa_secret.getD "") c = false) →
       (verify_backup_code c user.backup_codes).1 = false →
       MFAMixin.verify_mfa totp user (some c) =
         ({ success := false, requires_mfa := true, error := some "Invalid MFA code",
            used_backup_code := false }, user)) ∧
    (∀ db e p (u : UserRec), e ≠ "" → p ≠ "" →
       db.users.find? (fun v => v.email == e) = some u →
       check_password p u.password = true → u.is_active = true → u.is_verified = true →
       u.mfa_enabled = true →
       LoginView.post db false (some e) (some p) = .success u.id) := by
  refine ⟨?_, ?_, ?_⟩
  · intro totp user hen
    unfold MFAMixin.verify_mfa
    rw [if_neg (by rw [hen]; simp)]
  · intro totp user c hen hc htotp hbk
    unfold MFAMixin.verify_mfa
    rw [if_neg (by rw [hen]; simp)]
    simp only [if_neg hc]
    rw [if_neg (by rintro ⟨h1, h2⟩; rw [htotp h1] at h2; cases h2)]
    rw [if_neg (by rintro ⟨_, h2⟩; rw [hbk] at h2; cases h2)]
  · intro db e p u he hp hfind hpw hact hver hmfa
    simp [LoginView.post, authenticate, hfind, he, hp, hpw, hact, hver]

/-- Witness for the amended C3: the MFA-enabled user m@x.com is rejected by
verify_mfa with an absent code and with a wrong code, while LoginView.post
still returns the credential response for the very same user. -/
theorem mfa_challenge_amended_witness :
    MFAMixin.verify_mfa (fun _ _ => false) exMfaUser none =
      ({ success := false, requires_mfa := true, error := some "MFA code required",
         used_backup_code := false }, exMfaUser) ∧
    MFAMixin.verify_mfa (fun _ _ => false) exMfaUser (some "999999") =
      ({ success := false, requires_mfa := true, error := some "Invalid MFA code",
         used_backup_code := false }, exMfaUser) ∧
    LoginView.post exDbMfa false (some "m@x.com") (some "Secretpw1") = .success exMfaUser.id := by
  refine ⟨mfa_challenge_amended.1 (fun _ _ => false) exMfaUser rfl,
    mfa_challenge_amended.2.1 (fun _ _ => false) exMfaUser "999999" rfl (by decide)
      (fun _ => rfl) (by decide),
    mfa_challenge_amended.2.2 exDbMfa "m@x.com" "Secretpw1" exMfaUser (by decide) (by decide)
      (by decide) (by decide) rfl rfl rfl⟩

lemma findMatch_none_of_filter_nil (p : String → Bool) :
    ∀ l : List String, l.filter p = [] → findMatch p l = none := by
  intro l
  induction l with
  | nil => intro _; rfl
  | cons a t ih =>
    intro hf
    rw [List.filter_cons] at hf
    by_cases hp : p a
    · rw [if_pos hp] at hf
      cases hf
    · rw [if_neg hp] at hf
      simp [findMatch, hp, ih hf]

lemma findMatch_of_filter_len_one (p : String → Bool) :
    ∀ l : List String, (l.filter p).length = 1 →
      ∃ i, findMatch p l = some i ∧ i < l.length ∧ (l.eraseIdx i).filter p = [] := by
  intro l
  induction l with
  | nil => intro h; simp at h
  | cons a t ih =>
    intro h
    rw [List.filter_cons] at h
    by_cases hp : p a
    · rw [if_pos hp] at h
      simp only [List.length_cons] at h
      have h0 : (t.filter p).length = 0 := by omega
      refine ⟨0, by simp [findMatch, hp], by simp, ?_⟩
      simpa using List.length_eq_zero.mp h0
    · rw [if_neg hp] at h
      obtain ⟨i, h1, h2, h3⟩ := ih h
      refine ⟨i + 1, by simp [findMatch, hp, h1], by simpa using Nat.succ_lt_succ h2, ?_⟩
      rw [List.eraseIdx_cons_succ, List.filter_cons, if_neg hp]
      exact h3

lemma verify_backup_code_of_filter_one (c : String) (l : List String)
    (hone : (l.filter (fun h => check_password (normalize_code c) h)).length = 1) :
    ∃ i : Nat, verify_backup_code c l = (true, (i : Int)) ∧ i < l.length ∧
      ((l.eraseIdx i).filter (fun h => check_password (normalize_code c) h)) = [] := by
  obtain ⟨i, h1, h2, h3⟩ :=
    findMatch_of_filter_len_one (fun h => check_password (normalize_code c) h) l hone
  exact ⟨i, by simp only [verify_backup_code]; rw [h1], h2, h3⟩

lemma verify_backup_code_false_of_filter_nil (c : String) (l : List String)
    (hnil : l.filter (fun h => check_password (normalize_code c) h) = []) :
    verify_backup_code c l = (false, -1) := by
  simp only [verify_backup_code]
  rw [findMatch_none_of_filter_nil _ l hnil]

/-- C5: for an MFA-enabled user, a backup code (one that matches exactly one
stored hash and is not accepted as a TOTP code) authenticates at most once:
the first verify_mfa call succeeds with the used_backup_code marker and
removes exactly one entry from the stored list, and the retry with the same
code fails. -/
theorem backup_code_single_use (totp : String → String → Bool) (user : UserRec) (c : String)
    (hen : user.mfa_enabled = true) (hc : c ≠ "")
    (htotp : secretTruthy user.mfa_secret = true → totp (user.mfa_secret.getD "") c = false)
    (hone : (user.backup_codes.filter
        (fun h => check_password (normalize_code c) h)).length = 1) :
    (MFAMixin.verify_mfa totp user (some c)).1.success = true ∧
    (MFAMixin.verify_mfa totp user (some c)).1.used_backup_code = true ∧
    (MFAMixin.verify_mfa totp user (some c)).2.backup_codes.length + 1 =
      user.backup_codes.length ∧
    (MFAMixin.verify_mfa totp (MFAMixin.verify_mfa totp user (some c)).2 (some c)).1.success =
      false := by
  obtain ⟨i, hvb, hlt, herase⟩ := verify_backup_code_of_filter_one c user.backup_codes hone
  have hne : user.backup_codes ≠ [] := by
    intro h0
    rw [h0] at hone
    simp at hone
  have hmain : MFAMixin.verify_mfa totp user (some c) =
      ({ success := true, requires_mfa := true, error := none, used_backup_code := true },
       { user with backup_codes := user.backup_codes.eraseIdx i }) := by
    unfold MFAMixin.verify_mfa
    rw [if_neg (by rw [hen]; simp)]
    simp only [if_neg hc]
    rw [if_neg (by rintro ⟨h1, h2⟩; rw [htotp h1] at h2; cases h2)]
    rw [if_pos ⟨hne, by rw [hvb]⟩]
    rw [hvb]
    simp
  have hlen : (user.backup_codes.eraseIdx i).length + 1 = user.backup_codes.length := by
    rw [List.length_eraseIdx]
    simp only [hlt, if_pos]
    omega
  have hafter : verify_backup_code c (user.backup_codes.eraseIdx i) = (false, -1) :=
    verify_backup_code_false_of_filter_nil c _ herase
  have hsecond : (MFAMixin.verify_mfa totp
      { user with backup_codes := user.backup_codes.eraseIdx i } (some c)).1.success = false := by
    unfold MFAMixin.verify_mfa
    rw [if_neg (by rw [show ({ user with backup_codes := user.backup_codes.eraseIdx i} :
      UserRec).mfa_enabled = true from hen]; simp)]
    simp only [if_neg hc]
    rw [if_neg (by rintro ⟨h1, h2⟩; rw [htotp h1] at h2; cases h2)]
    rw [if_neg (by rintro ⟨_, h2⟩; rw [hafter] at h2; cases h2)]
  rw [hmain]
  exact ⟨rfl, rfl, hlen, hsecond⟩

/-- Witness for C5: the user m@x.com redeems the backup code "AAAA1111" (also
written with a hyphen and lowercase, exercising the normalisation) once; the
stored list shrinks from 2 to 1 and the retry fails. -/
theorem backup_code_single_use_witness :
    (MFAMixin.verify_mfa (fun _ _ => false) exMfaUser (some "aaaa-1111")).1.success = true ∧
    (MFAMixin.verify_mfa (fun _ _ => false) exMfaUser (some "aaaa-1111")).1.used_backup_code =
      true ∧
    (MFAMixin.verify_mfa (fun _ _ => false) exMfaUser
        (some "aaaa-1111")).2.backup_codes.length + 1 = exMfaUser.backup_codes.length ∧
    (MFAMixin.verify_mfa (fun _ _ => false)
        (MFAMixin.verify_mfa (fun _ _ => false) exMfaUser (some "aaaa-1111")).2
        (some "aaaa-1111")).1.success = false :=
  backup_code_single_use (fun _ _ => false) exMfaUser "aaaa-1111" rfl (by decide)
    (fun _ => rfl) (by decide)

end CollabHub
